/-
Verification of the health-rec retrieval / ranking / reranking /
deduplication / response-classification pipeline.

Shallow embedding of the Python sources under src/health_rec:
  services/ranking.py        (RankingService, _calculate_distance)
  services/rerank.py         (ReRankingService._process_ranking_response, rerank)
  services/rag.py            (RAGService.generate, _prepare_context,
                              _retrieve_and_rank_services, _generate_response)
  services/deduplication.py  (create_duplicate_key, remove_duplicates,
                              remove_duplicates_from_documents)
  services/emergency.py      (get_emergency_services_message)
  api/routes.py              (retrieve endpoint geo-filter)

Numeric scores, coordinates and radii are modelled as rationals; the
real-valued haversine geo-distance is modelled over the reals.  The LLM and
the vector index are external collaborators: they enter as parameters
(an oracle function for the LLM, an explicit candidate list for the index).
Python float formatting inside the deduplication key string
"name|lat|lon" is modelled as the structured triple (name, lat, lon),
which carries the same identification data.
-/
import Mathlib

namespace HealthRec

/-- api/data.py ServiceDocument: a Chroma document. The metadata mapping is
modelled by its fields the pipeline reads: "name", "latitude", "longitude"
(each possibly absent). `relevancy_score` is the cosine-distance style score
produced by the index (larger = less similar); `distance` is the geographic
distance filled in by the ranking engine (None until computed). -/
structure ServiceDoc where
  id : String
  document : String
  name : Option String := none
  mlat : Option ℚ := none
  mlon : Option ℚ := none
  relevancy_score : ℚ
  distance : Option ℚ := none
deriving DecidableEq, Repr

/-- api/data.py Query: free text plus optional latitude/longitude/radius. -/
structure Query where
  query : String
  latitude : Option ℚ := none
  longitude : Option ℚ := none
  radius : Option ℚ := none
deriving DecidableEq, Repr

/-- The Service record as read by services/deduplication.py (fields
`name`, `latitude`, `longitude`, `last_updated`); timestamps are modelled
as naturals, `datetime.min` as 0. `id` and `description` are payload. -/
structure Service where
  id : String
  name : String
  description : String := ""
  latitude : ℚ
  longitude : ℚ
  last_updated : Option Nat := none
deriving DecidableEq, Repr

/-- api/data.py RecommendationResponse, generic over the user-facing
service projection type (services/utils.py `_metadata_to_service` output). -/
structure RecommendationResponse (σ : Type) where
  message : String
  is_emergency : Bool
  is_out_of_scope : Bool
  services : Option (List σ) := none
  no_services_found : Bool := false
deriving DecidableEq, Repr

/-- services/rerank.py RerankingConfig. -/
structure RerankingConfig where
  retrieval_k : Nat := 20
  output_k : Nat := 5
  max_content_length : Nat := 150
deriving DecidableEq, Repr

/-! ## Python string primitives

Modelled on the character list (`String.data`) so that every operation is
structurally recursive: `str.lower()`, `str.strip()`, `str.startswith(p)`
and `sep.join(...)`. -/

/-- `str.lower()`. -/
def pyLower (s : String) : String :=
  String.mk (s.data.map Char.toLower)

/-- `str.strip()`: drop whitespace from both ends. -/
def pyStrip (s : String) : String :=
  String.mk
    (((s.data.dropWhile Char.isWhitespace).reverse.dropWhile
      Char.isWhitespace).reverse)

/-- `str.startswith(pre)`. -/
def pyStartsWith (s pre : String) : Bool :=
  pre.data.isPrefixOf s.data

/-- `"\n".join(texts)` as a character list. -/
def joinNL : List String → List Char
  | [] => []
  | [s] => s.data
  | s :: ss => s.data ++ '\n' :: joinNL ss

/-! ## Deduplication engine (services/deduplication.py) -/

/-- `normalize_name`: lower-case and strip. -/
def normalizeName (name : String) : String :=
  pyStrip (pyLower name)

/-- Python `round(x, p)` (round half to even), on rationals. -/
def roundHalfEven (x : ℚ) : ℤ :=
  let f : ℤ := ⌊x⌋
  let r : ℚ := x - f
  if r < 1/2 then f
  else if 1/2 < r then f + 1
  else if f % 2 = 0 then f else f + 1

/-- Round to `p` decimal digits, Python `round(x, p)`. -/
def roundq (p : Nat) (x : ℚ) : ℚ :=
  (roundHalfEven (x * 10 ^ p) : ℚ) / 10 ^ p

/-- `create_duplicate_key`: the formatted string
`normalize(name)|round(lat,6)|round(lon,6)`, modelled as the triple of its
components. -/
def createDuplicateKey (name : String) (latitude longitude : ℚ)
    (precision : Nat := 6) : String × ℚ × ℚ :=
  (normalizeName name, roundq precision latitude, roundq precision longitude)

/-- The identity key of a Service record. -/
def serviceKey (s : Service) : String × ℚ × ℚ :=
  createDuplicateKey s.name s.latitude s.longitude

/-- The main loop of `remove_duplicates`: walk the (pre-processed) list,
keep the first record per identity key, count the rest. `seen` is the
`seen_keys` set. -/
def dedupPass : List Service → List (String × ℚ × ℚ) → List Service × Nat
  | [], _ => ([], 0)
  | s :: ss, seen =>
    let key := serviceKey s
    if key ∈ seen then
      ((dedupPass ss seen).1, (dedupPass ss seen).2 + 1)
    else
      (s :: (dedupPass ss (key :: seen)).1, (dedupPass ss (key :: seen)).2)

/-- The keys of a list in first-occurrence order: insertion order of the
`key_to_services` dict built by the `most_recent` strategy. -/
def keysInOrder : List Service → List (String × ℚ × ℚ)
  | [] => []
  | s :: ss =>
    serviceKey s :: keysInOrder (ss.filter (fun t => serviceKey t ≠ serviceKey s))
termination_by l => l.length
decreasing_by
  simp only [gt_iff_lt]
  calc (ss.filter (fun t => serviceKey t ≠ serviceKey s)).length
      ≤ ss.length := ss.length_filter_le _
    _ < (s :: ss).length := by simp

/-- `service_group.sort(key=lambda s: s.last_updated or datetime.min,
reverse=True)`: stable descending sort by timestamp. -/
def sortGroup (g : List Service) : List Service :=
  g.mergeSort (fun a b => decide (b.last_updated.getD 0 ≤ a.last_updated.getD 0))

/-- The `most_recent` pre-processing: group by key (dict insertion order),
sort each group by timestamp descending, flatten. -/
def regroupMostRecent (l : List Service) : List Service :=
  ((keysInOrder l).map
    (fun k => sortGroup (l.filter (fun s => serviceKey s = k)))).flatten

/-- `remove_duplicates(services, keep_strategy)`: returns the deduplicated
list and the number of removed entries. -/
def removeDuplicates (services : List Service)
    (keep_strategy : String := "first") : List Service × Nat :=
  if services = [] then (services, 0)
  else
    let processed :=
      if keep_strategy = "last" then services.reverse
      else if keep_strategy = "most_recent" then regroupMostRecent services
      else services
    let (uniq, cnt) := dedupPass processed []
    (if keep_strategy = "last" then uniq.reverse else uniq, cnt)

/-- The identity key of a ServiceDocument, read from its metadata;
`none` when the name is missing/empty or a coordinate is missing
(`if not name or latitude is None or longitude is None`). -/
def docKeyOpt (d : ServiceDoc) : Option (String × ℚ × ℚ) :=
  let name := d.name.getD ""
  match d.mlat, d.mlon with
  | some la, some lo =>
      if name = "" then none else some (createDuplicateKey name la lo)
  | _, _ => none

/-- The main loop of `remove_duplicates_from_documents`: a document whose
identity cannot be determined is kept unconditionally. -/
def dedupDocsPass :
    List ServiceDoc → List (String × ℚ × ℚ) → List ServiceDoc × Nat
  | [], _ => ([], 0)
  | d :: ds, seen =>
    match docKeyOpt d with
    | none =>
      (d :: (dedupDocsPass ds seen).1, (dedupDocsPass ds seen).2)
    | some key =>
      if key ∈ seen then
        ((dedupDocsPass ds seen).1, (dedupDocsPass ds seen).2 + 1)
      else
        (d :: (dedupDocsPass ds (key :: seen)).1,
          (dedupDocsPass ds (key :: seen)).2)

/-- `remove_duplicates_from_documents(documents, keep_strategy)`. -/
def removeDuplicatesFromDocuments (documents : List ServiceDoc)
    (keep_strategy : String := "first") : List ServiceDoc × Nat :=
  if documents = [] then (documents, 0)
  else
    let processed :=
      if keep_strategy = "last" then documents.reverse
      else if keep_strategy = "best_score" then
        documents.mergeSort
          (fun a b => decide (a.relevancy_score ≤ b.relevancy_score))
      else documents
    let (uniq, cnt) := dedupDocsPass processed []
    (if keep_strategy = "last" then uniq.reverse else uniq, cnt)

/-! ## Geo-distance utility (services/ranking.py `_calculate_distance`) -/

/-- `math.radians`: degrees to radians. -/
noncomputable def pyRadians (x : ℝ) : ℝ := x * Real.pi / 180

/-- `math.atan2(y, x)`: the two-argument arctangent. -/
noncomputable def pyAtan2 (y x : ℝ) : ℝ :=
  if 0 < x then Real.arctan (y / x)
  else if x < 0 ∧ 0 ≤ y then Real.arctan (y / x) + Real.pi
  else if x < 0 ∧ y < 0 then Real.arctan (y / x) - Real.pi
  else if x = 0 ∧ 0 < y then Real.pi / 2
  else if x = 0 ∧ y < 0 then -(Real.pi / 2)
  else 0

/-- `_calculate_distance(location1, location2)`: haversine great-circle
distance in kilometres, Earth radius 6371.0088 km. -/
noncomputable def calculateDistance (location1 location2 : ℝ × ℝ) : ℝ :=
  let lat1 := location1.1
  let lon1 := location1.2
  let lat2 := location2.1
  let lon2 := location2.2
  let radius : ℝ := 63710088 / 10000000
  let lat1_rad := pyRadians lat1
  let lon1_rad := pyRadians lon1
  let lat2_rad := pyRadians lat2
  let lon2_rad := pyRadians lon2
  let dlat := lat2_rad - lat1_rad
  let dlon := lon2_rad - lon1_rad
  let a := Real.sin (dlat / 2) ^ 2 +
    Real.cos lat1_rad * Real.cos lat2_rad * Real.sin (dlon / 2) ^ 2
  let c := 2 * pyAtan2 (Real.sqrt a) (Real.sqrt (1 - a))
  radius * c

/-! ## Ranking engine (services/ranking.py RankingService)

The geographic-distance function used on the pipeline's rational scores is
a parameter `distFn` (its real-valued implementation is `calculateDistance`
above). -/

/-- `_rank_by_relevancy`: stable sort descending by the raw
`relevancy_score` (`sort(key=..., reverse=True)`). -/
def rankByRelevancy (services : List ServiceDoc) : List ServiceDoc :=
  services.mergeSort (fun a b => decide (b.relevancy_score ≤ a.relevancy_score))

/-- `_calculate_ranking_score`: composite of cosine similarity
(`1 - relevancy_score`) and normalized distance (`min(distance/100, 1)`),
weighted by the relevancy weight `w` (distance weight `1 - w`).
The ranking path always sets `distance` before scoring. -/
def calculateRankingScore (w : ℚ) (service : ServiceDoc) : ℚ :=
  let cosine_similarity := 1 - service.relevancy_score
  let normalized_distance := min (service.distance.getD 0 / 100) 1
  w * cosine_similarity + (1 - w) * (1 - normalized_distance)

/-- The distance-computing loop of `_rank_by_relevancy_and_distance`:
`service.distance = _calculate_distance(service_location, user_location)`
with `service_location = (float(metadata["latitude"]), float(metadata["longitude"]))`.
A missing metadata coordinate is a KeyError (modelled `.error`). -/
def computeDistances (distFn : ℚ × ℚ → ℚ × ℚ → ℚ) (user_location : ℚ × ℚ) :
    List ServiceDoc → Except Unit (List ServiceDoc)
  | [] => .ok []
  | d :: ds =>
    match d.mlat, d.mlon with
    | some la, some lo => do
      let rest ← computeDistances distFn user_location ds
      .ok ({ d with distance := some (distFn (la, lo) user_location) } :: rest)
    | _, _ => .error ()

/-- `_rank_by_relevancy_and_distance`: fill in distances, then stable sort
descending by the composite ranking score. -/
def rankByRelevancyAndDistance (w : ℚ) (distFn : ℚ × ℚ → ℚ × ℚ → ℚ)
    (services : List ServiceDoc) (user_location : ℚ × ℚ) :
    Except Unit (List ServiceDoc) :=
  (computeDistances distFn user_location services).map (fun ds =>
    ds.mergeSort (fun a b =>
      decide (calculateRankingScore w b ≤ calculateRankingScore w a)))

/-- `rank_services`: dispatch on the presence of a user location. -/
def rankServices (w : ℚ) (distFn : ℚ × ℚ → ℚ × ℚ → ℚ)
    (services : List ServiceDoc) (user_location : Option (ℚ × ℚ)) :
    Except Unit (List ServiceDoc) :=
  match user_location with
  | none => .ok (rankByRelevancy services)
  | some loc => rankByRelevancyAndDistance w distFn services loc

/-! ## Orchestrator (services/rag.py RAGService) -/

/-- Python truthiness of an optional float: `None` and `0` are falsy. -/
def truthy (o : Option ℚ) : Bool :=
  match o with
  | none => false
  | some x => decide (x ≠ 0)

/-- `(query.latitude, query.longitude) if query.latitude and
query.longitude else None`. -/
def userLocation (q : Query) : Option (ℚ × ℚ) :=
  if truthy q.latitude && truthy q.longitude then
    some (q.latitude.getD 0, q.longitude.getD 0)
  else none

/-- The radius filter of `_retrieve_and_rank_services`:
`[doc for doc in docs if doc.distance <= query.radius]`. Comparing an
unset (`None`) distance with the radius is a TypeError (modelled `.error`). -/
def filterByRadius (radius : ℚ) :
    List ServiceDoc → Except Unit (List ServiceDoc)
  | [] => .ok []
  | d :: ds =>
    match d.distance with
    | none => .error ()
    | some dist => do
      let rest ← filterByRadius radius ds
      .ok (if dist ≤ radius then d :: rest else rest)

/-- `_retrieve_and_rank_services` after retrieval: rank the candidate pool,
then filter by radius when `query.radius` is truthy. The pool (the
reranker's output) is the parameter `docs`. -/
def retrieveAndRankServices (w : ℚ) (distFn : ℚ × ℚ → ℚ × ℚ → ℚ)
    (q : Query) (docs : List ServiceDoc) : Except Unit (List ServiceDoc) := do
  let ranked ← rankServices w distFn docs (userLocation q)
  if truthy q.radius then filterByRadius (q.radius.getD 0) ranked
  else .ok ranked

/-- The geo-filter of the `/retrieve` endpoint (api/routes.py): applied only
when latitude, longitude and radius are all truthy; inside the filter a
document with falsy metadata coordinates is dropped. -/
def retrieveEndpointFilter (distFn : ℚ × ℚ → ℚ × ℚ → ℚ) (q : Query)
    (docs : List ServiceDoc) : List ServiceDoc :=
  if truthy q.latitude && truthy q.longitude && truthy q.radius then
    docs.filter (fun d =>
      truthy d.mlat && truthy d.mlon &&
        decide (distFn (d.mlat.getD 0, d.mlon.getD 0)
          (q.latitude.getD 0, q.longitude.getD 0) ≤ q.radius.getD 0))
  else docs

/-- The fixed placeholder context of `_prepare_context`. -/
def noServicesPlaceholder : String :=
  "No services found within the specified radius."

/-- `_prepare_context`: join the document texts with newlines; an empty
context is replaced by the fixed placeholder with the flag set. -/
def prepareContext (service_documents : List ServiceDoc) : String × Bool :=
  let context := String.mk
    (joinNL (service_documents.map (fun service => service.document)))
  if context = "" then (noServicesPlaceholder, true)
  else (context, false)

/-- services/emergency.py `get_emergency_services_message`: the static
emergency notice (the triple-quoted literal, newlines and indentation
verbatim). -/
def emergencyServicesMessage : String :=
  "
    If you are experiencing an emergency, please call 9-1-1 immediately.

    Important Information:
    • 9-1-1 is for police, fire, or medical emergencies requiring immediate assistance.
    • Calls to 9-1-1 are free from any phone, including pay phones and cell phones.
    • If using a cell phone, be prepared to provide your exact location.
    • For TTY users: Press the space bar announcer key repeatedly until you receive a response.
    • If you don't speak English, stay on the line and a translator will be connected.

    When calling 9-1-1:
    1. Stay calm and speak clearly.
    2. State which service you need (police, fire, or ambulance).
    3. Provide your location, name, and phone number.
    4. Describe the emergency situation.
    5. Follow the dispatcher's instructions.
    6. Don't hang up until told to do so.

    Additional Resources:
    • Toronto Police Service: https://www.tps.ca/
    • Toronto Fire Services: https://www.toronto.ca/city-government/accountability-operations-customer-service/city-administration/staff-directory-divisions-and-customer-service/fire-services/
    • Toronto Paramedic Services: https://www.toronto.ca/community-people/public-safety-alerts/understanding-emergency-services/toronto-paramedic-services/
    • Non-emergency City services: Call 311 or visit https://www.toronto.ca/home/311-toronto-at-your-service/

    For mental health crisis support:
    • Toronto Distress Centres: 416-408-4357 (416-408-HELP)
    • Gerstein Crisis Centre: 416-929-5200

    Remember, your safety is the top priority. Don't hesitate to call 9-1-1 if you're unsure about the severity of your situation.
    "

/-- The sentinel branches of `_generate_response`, applied to the stripped
LLM response body. The `services` field is left at its default (`None`). -/
def generateResponse (σ : Type) (body : String) : RecommendationResponse σ :=
  if body = "EMERGENCY" then
    { message := emergencyServicesMessage
      is_emergency := true, is_out_of_scope := false }
  else if pyStartsWith body "Response:" then
    { message := body, is_emergency := false, is_out_of_scope := true }
  else if body = "NO_SERVICES_FOUND" then
    { message := body, is_emergency := false, is_out_of_scope := false
      no_services_found := true }
  else
    { message := body, is_emergency := false, is_out_of_scope := false }

/-- The response assembly of `generate` once the stripped classification
body is known: emergency/out-of-scope responses are returned with an empty
services list; otherwise the converted document list is attached together
with the `no_services_found` flag computed from the context. -/
def assembleResponse {σ : Type} (convert : ServiceDoc → σ)
    (docs : List ServiceDoc) (body : String) : RecommendationResponse σ :=
  let response := generateResponse σ body
  if response.is_out_of_scope || response.is_emergency then
    { message := response.message
      is_emergency := response.is_emergency
      is_out_of_scope := response.is_out_of_scope
      services := some [] }
  else
    { message := response.message
      is_emergency := response.is_emergency
      is_out_of_scope := response.is_out_of_scope
      services := some (docs.map convert)
      no_services_found := (prepareContext docs).2 }

/-- `generate` from the ranked/filtered pool on: build the context, call the
classification LLM on it (`llm` returns the completion content, `none` for a
null content, which raises), strip, and assemble. The second component
counts the classification calls made (the code makes exactly one,
unconditionally). -/
def generateCore {σ : Type} (convert : ServiceDoc → σ)
    (llm : String → Option String) (docs : List ServiceDoc) :
    Except Unit (RecommendationResponse σ × Nat) :=
  match llm (prepareContext docs).1 with
  | none => .error ()
  | some raw => .ok (assembleResponse convert docs (pyStrip raw), 1)

/-! ## Reranking engine (services/rerank.py ReRankingService) -/

/-- Maximal runs of digits in a character list: the model's
`"".join(c if c.isdigit() else " " for c in response).split()`. -/
def digitRuns : List Char → List (List Char)
  | [] => []
  | c :: cs =>
    let rest := digitRuns cs
    if c.isDigit then
      match cs with
      | c' :: _ =>
        if c'.isDigit then
          match rest with
          | r :: rs => (c :: r) :: rs
          | [] => [[c]]
        else [c] :: rest
      | [] => [[c]]
    else rest

/-- `int(x)` on a run of digits. -/
def digitsToNat (r : List Char) : Nat :=
  r.foldl (fun acc c => acc * 10 + (c.toNat - 48)) 0

/-- `rankings = [int(x) - 1 for x in ...split()]`: 1-based model indices
converted to 0-based (so the run "0" yields -1). -/
def parseRankings (response : String) : List ℤ :=
  (digitRuns response.data).map (fun r => (digitsToNat r : ℤ) - 1)

/-- `valid_rankings`: discard indices outside `[0, len(documents))`, as
naturals. -/
def validRankings (response : String) (n : Nat) : List Nat :=
  ((parseRankings response).filter
    (fun i => decide (0 ≤ i) && decide (i < (n : ℤ)))).map Int.toNat

/-- `missing_indices`: the candidate indices the model did not mention, in
ascending (original pool) order. -/
def missingIndices (response : String) (n : Nat) : List Nat :=
  (List.range n).filter (fun i => !(validRankings response n).contains i)

/-- `_process_ranking_response`: parsed valid indices, then the missing
ones, truncated to `output_k`, mapped back to documents. -/
def processRankingResponse (response : String) (documents : List ServiceDoc)
    (output_k : Nat) : List ServiceDoc :=
  let n := documents.length
  let rankings := validRankings response n ++ missingIndices response n
  (rankings.take output_k).filterMap (fun i => documents[i]?)

/-- `rerank` from the retrieved pool on: an empty pool short-circuits to
`[]`; otherwise the LLM is called. A transport failure (`.error`) or a null
completion content (`.ok none`) raises (the code has no try/except around
the call); a returned text is processed by `_process_ranking_response`. -/
def rerankCore (cfg : RerankingConfig) (docs : List ServiceDoc)
    (llm : Except Unit (Option String)) : Except Unit (List ServiceDoc) :=
  if docs.isEmpty then .ok []
  else
    match llm with
    | .error _ => .error ()
    | .ok none => .error ()
    | .ok (some response) =>
      .ok (processRankingResponse response docs cfg.output_k)

/-! ## Theorems -/

/-- C9: the geo-distance function (haversine, Earth radius 6371.0088 km)
vanishes on identical points and is symmetric in its two arguments. -/
theorem geo_distance_zero_and_symm :
    (∀ P : ℝ × ℝ, calculateDistance P P = 0) ∧
    (∀ A B : ℝ × ℝ, calculateDistance A B = calculateDistance B A) := by
  have hsin : ∀ x y : ℝ,
      Real.sin ((x - y) / 2) ^ 2 = Real.sin ((y - x) / 2) ^ 2 := by
    intro x y
    rw [show (x - y) / 2 = -((y - x) / 2) by ring, Real.sin_neg, neg_sq]
  constructor
  · intro P
    simp [calculateDistance, pyAtan2, Real.arctan_zero]
  · intro A B
    simp only [calculateDistance]
    rw [hsin (pyRadians B.1) (pyRadians A.1), hsin (pyRadians B.2) (pyRadians A.2),
      mul_comm (Real.cos (pyRadians A.1)) (Real.cos (pyRadians B.1))]

/-- C10: zero-valued optional query fields are treated as absent: a zero
latitude or longitude yields no user location (pure-relevancy ranking, no
distance computed, documents unchanged), a zero radius skips radius
filtering, and the `/retrieve` endpoint's geo-filter uses the same
zero-as-absent test. -/
theorem zero_optional_fields_absent :
    (∀ q : Query, q.latitude = some 0 ∨ q.longitude = some 0 →
      userLocation q = none) ∧
    (∀ (w : ℚ) (distFn : ℚ × ℚ → ℚ × ℚ → ℚ) (q : Query)
      (docs : List ServiceDoc),
      q.latitude = some 0 ∨ q.longitude = some 0 →
      rankServices w distFn docs (userLocation q) = .ok (rankByRelevancy docs)
        ∧ ∀ d ∈ rankByRelevancy docs, d ∈ docs) ∧
    (∀ (w : ℚ) (distFn : ℚ × ℚ → ℚ × ℚ → ℚ) (q : Query)
      (docs : List ServiceDoc),
      q.radius = some 0 →
      retrieveAndRankServices w distFn q docs
        = rankServices w distFn docs (userLocation q)) ∧
    (∀ (distFn : ℚ × ℚ → ℚ × ℚ → ℚ) (q : Query) (docs : List ServiceDoc),
      q.latitude = some 0 ∨ q.longitude = some 0 ∨ q.radius = some 0 →
      retrieveEndpointFilter distFn q docs = docs) := by
  have huser : ∀ q : Query, q.latitude = some 0 ∨ q.longitude = some 0 →
      userLocation q = none := by
    intro q h
    rcases h with h | h <;> simp [userLocation, truthy, h]
  refine ⟨huser, ?_, ?_, ?_⟩
  · intro w distFn q docs h
    rw [huser q h]
    refine ⟨rfl, fun d hd => ?_⟩
    simp only [rankByRelevancy, List.mem_mergeSort] at hd
    exact hd
  · intro w distFn q docs h
    cases hx : rankServices w distFn docs (userLocation q) with
    | error e =>
      simp [retrieveAndRankServices, Bind.bind, Except.bind, hx]
    | ok ranked =>
      simp [retrieveAndRankServices, Bind.bind, Except.bind, hx, h, truthy]
  · intro distFn q docs h
    rcases h with h | h | h <;> simp [retrieveEndpointFilter, truthy, h]

/-- C10 witness: a concrete query with zero latitude yields no user
location. -/
theorem zero_optional_fields_absent_w :
    userLocation
      { query := "food", latitude := some 0, longitude := some 5,
        radius := some 3 } = none :=
  zero_optional_fields_absent.1 _ (Or.inl rfl)

/-- C6: evaluation of `_retrieve_and_rank_services` at the failing input. A
query with a radius but no latitude/longitude still enters the radius
filter (the code guards only on `query.radius`), where the documents'
distances were never computed, so the comparison `doc.distance <= radius`
raises a TypeError (modelled `.error ()`). With latitude, longitude and
radius all present, filtering happens after ranking and keeps exactly the
documents within the radius. -/
theorem radius_filter_without_location_errors :
    retrieveAndRankServices (1/2) (fun _ _ => 0)
      { query := "food bank", radius := some 5 }
      [{ id := "d1", document := "Food bank", mlat := some 1, mlon := some 1,
         relevancy_score := 1 }] = .error () ∧
    retrieveAndRankServices 1 (fun p _ => p.1)
      { query := "food bank", latitude := some 4, longitude := some 4,
        radius := some 5 }
      [{ id := "near", document := "Near", mlat := some 1, mlon := some 1,
         relevancy_score := 1 },
       { id := "far", document := "Far", mlat := some 50, mlon := some 1,
         relevancy_score := 2 }] =
      .ok [{ id := "near", document := "Near", mlat := some 1,
             mlon := some 1, relevancy_score := 1, distance := some 1 }] := by
  constructor
  · simp [retrieveAndRankServices, rankServices, userLocation, truthy,
      rankByRelevancy, List.mergeSort, filterByRadius, Bind.bind, Except.bind]
  · norm_num [retrieveAndRankServices, rankServices, userLocation, truthy,
      rankByRelevancyAndDistance, computeDistances, calculateRankingScore,
      List.mergeSort, List.merge, filterByRadius, Bind.bind, Except.bind,
      Except.map]

/-- C4 counterexample: with an empty candidate pool the classification LLM
call is still made (call count 1, not 0) — its input is the fixed
placeholder (witnessed by an echoing LLM oracle) — and the final message is
whatever the LLM returns, not the placeholder. -/
theorem empty_pool_llm_called_cex :
    generateCore (fun d => d.id) (fun ctx => some ctx) [] =
      .ok ({ message := noServicesPlaceholder, is_emergency := false,
             is_out_of_scope := false, services := some [],
             no_services_found := true }, 1) ∧
    generateCore (fun d => d.id)
        (fun _ => some "Here is a recommendation.") [] =
      .ok ({ message := "Here is a recommendation.", is_emergency := false,
             is_out_of_scope := false, services := some [],
             no_services_found := true }, 1) ∧
    ("Here is a recommendation." : String) ≠ noServicesPlaceholder :=
  ⟨rfl, rfl, by decide⟩

/-- C4 (amended): an empty candidate pool substitutes the fixed placeholder
context and sets `no_services_found = True` in the final response (when the
classification body is not an emergency/out-of-scope sentinel) — but the
classification LLM call is still invoked, exactly once, with the
placeholder as context, and the final message is the LLM's stripped
response. -/
theorem empty_pool_placeholder_and_flag :
    (prepareContext [] = (noServicesPlaceholder, true)) ∧
    (∀ {σ : Type} (convert : ServiceDoc → σ) (llm : String → Option String)
      (body : String), llm noServicesPlaceholder = some body →
      pyStrip body ≠ "EMERGENCY" →
      pyStartsWith (pyStrip body) "Response:" = false →
      generateCore convert llm [] =
        .ok ({ message := pyStrip body, is_emergency := false,
               is_out_of_scope := false, services := some [],
               no_services_found := true }, 1)) ∧
    (∀ {σ : Type} (convert : ServiceDoc → σ) (llm : String → Option String)
      (docs : List ServiceDoc) (res : RecommendationResponse σ × Nat),
      generateCore convert llm docs = .ok res → res.2 = 1) := by
  refine ⟨rfl, ?_, ?_⟩
  · intro σ convert llm body hllm h1 h2
    simp only [generateCore]
    rw [show (prepareContext ([] : List ServiceDoc)).1 = noServicesPlaceholder
      from rfl, hllm]
    by_cases hb : pyStrip body = "NO_SERVICES_FOUND" <;>
      simp [assembleResponse, generateResponse, h1, h2, hb, prepareContext,
        joinNL,
        (show pyStartsWith "NO_SERVICES_FOUND" "Response:" = false from rfl)]
  · intro σ convert llm docs res h
    cases hl : llm (prepareContext docs).1 with
    | none => simp [generateCore, hl] at h
    | some raw =>
      simp only [generateCore, hl, Except.ok.injEq] at h
      rw [← h]

/-- C4 witness: a concrete non-sentinel classification body on the empty
pool. -/
theorem empty_pool_placeholder_and_flag_w :
    generateCore (fun d : ServiceDoc => d.id)
        (fun _ => some "Overview: A service.") [] =
      .ok ({ message := pyStrip "Overview: A service.",
             is_emergency := false, is_out_of_scope := false,
             services := some [], no_services_found := true }, 1) :=
  empty_pool_placeholder_and_flag.2.1 _ _ "Overview: A service." rfl
    (by decide) (by decide)

/-- C1 counterexample: a stripped body of exactly `"NO_SERVICES_FOUND"`
over a non-empty pool does NOT yield `no_services_found = True` with empty
services — the assembled response keeps the flag from the (non-empty)
context and attaches the converted document list. -/
theorem no_services_sentinel_cex :
    (assembleResponse (fun d => d.id)
        [{ id := "d1", document := "Food bank info", relevancy_score := 1 }]
        "NO_SERVICES_FOUND").no_services_found = false ∧
    (assembleResponse (fun d => d.id)
        [{ id := "d1", document := "Food bank info", relevancy_score := 1 }]
        "NO_SERVICES_FOUND").services = some ["d1"] ∧
    (some ["d1"] : Option (List String)) ≠ some [] :=
  ⟨rfl, rfl, by decide⟩

/-- C1 (amended): sentinel contract of the classification response as the
code assembles it. Exactly `"EMERGENCY"` → emergency outcome, static
message, empty services; a body starting with `"Response:"` → out-of-scope,
text passed through verbatim, empty services; any other body (including
exactly `"NO_SERVICES_FOUND"`) → normal assembly, whose services list is
the converted document list (non-empty when the pool is non-empty) and
whose `no_services_found` flag comes from the context-emptiness check, not
from the sentinel. -/
theorem classification_sentinel_contract :
    ∀ {σ : Type} (convert : ServiceDoc → σ) (docs : List ServiceDoc)
      (body : String),
      (body = "EMERGENCY" →
        assembleResponse convert docs body =
          { message := emergencyServicesMessage, is_emergency := true,
            is_out_of_scope := false, services := some [] }) ∧
      (body ≠ "EMERGENCY" → pyStartsWith body "Response:" = true →
        assembleResponse convert docs body =
          { message := body, is_emergency := false, is_out_of_scope := true,
            services := some [] }) ∧
      (body = "NO_SERVICES_FOUND" →
        assembleResponse convert docs body =
          { message := body, is_emergency := false, is_out_of_scope := false,
            services := some (docs.map convert),
            no_services_found := (prepareContext docs).2 }) ∧
      (body ≠ "EMERGENCY" → pyStartsWith body "Response:" = false →
        assembleResponse convert docs body =
          { message := body, is_emergency := false, is_out_of_scope := false,
            services := some (docs.map convert),
            no_services_found := (prepareContext docs).2 }) ∧
      (docs ≠ [] → docs.map convert ≠ []) := by
  intro σ convert docs body
  refine ⟨?_, ?_, ?_, ?_, ?_⟩
  · intro h
    subst h
    simp +decide [assembleResponse, generateResponse]
  · intro h1 h2
    simp [assembleResponse, generateResponse, h1, h2]
  · intro h
    subst h
    simp +decide [assembleResponse, generateResponse,
      (show pyStartsWith "NO_SERVICES_FOUND" "Response:" = false from rfl)]
  · intro h1 h2
    by_cases hb : body = "NO_SERVICES_FOUND" <;>
      simp [assembleResponse, generateResponse, h1, h2, hb,
        (show pyStartsWith "NO_SERVICES_FOUND" "Response:" = false from rfl)]
  · intro h
    simpa [List.map_eq_nil_iff] using h

/-- C1 witness: the emergency sentinel at a concrete non-empty pool. -/
theorem classification_sentinel_contract_w :
    assembleResponse (fun d : ServiceDoc => d.id)
        [{ id := "d1", document := "Food bank info", relevancy_score := 1 }]
        "EMERGENCY" =
      { message := emergencyServicesMessage, is_emergency := true,
        is_out_of_scope := false, services := some [] } :=
  (classification_sentinel_contract (fun d => d.id) _ "EMERGENCY").1 rfl

/-- Looking up the first `k` positions of a list in order reproduces
`take k`. -/
theorem take_range_filterMap {α : Type} (docs : List α) (k : Nat) :
    ((List.range docs.length).take k).filterMap (fun i => docs[i]?) =
      docs.take k := by
  induction docs generalizing k with
  | nil => simp
  | cons d ds ih =>
    cases k with
    | zero => simp
    | succ k =>
      have h0 : (d :: ds)[0]? = some d := by simp
      rw [List.length_cons, List.range_succ_eq_map, List.take_succ_cons,
        List.filterMap_cons, h0, ← List.map_take, List.filterMap_map]
      have hcomp : (fun i => (d :: ds)[i]?) ∘ Nat.succ =
          fun i => ds[i]? := by
        funext i
        simp
      rw [hcomp, ih k, List.take_succ_cons]

/-- C3 counterexample: a failed LLM call (transport error) and a null
completion content both propagate out of `rerank` as errors on a non-empty
pool — the error is not replaced by the original order truncated to
`output_k`. -/
theorem rerank_failure_surfaced_cex :
    rerankCore {} [{ id := "d1", document := "A", relevancy_score := 1 }]
      (.error ()) = .error () ∧
    rerankCore {} [{ id := "d1", document := "A", relevancy_score := 1 }]
      (.ok none) = .error () ∧
    (Except.error () : Except Unit (List ServiceDoc)) ≠
      .ok ([{ id := "d1", document := "A", relevancy_score := 1 }].take
        ({} : RerankingConfig).output_k) :=
  ⟨rfl, rfl, by simp⟩

/-- C3 (amended): only an *unparseable* ranking text falls back to the
original (unreranked) order truncated to `output_k`; a transport failure of
the LLM call or a null completion content raises and IS surfaced to the
caller (the code has no try/except around the call). An empty pool
short-circuits to `[]` without calling the LLM. -/
theorem rerank_fallback_semantics :
    ∀ (cfg : RerankingConfig) (docs : List ServiceDoc) (response : String),
      (docs ≠ [] →
        rerankCore cfg docs (.ok (some response)) =
          .ok (processRankingResponse response docs cfg.output_k)) ∧
      (validRankings response docs.length = [] →
        processRankingResponse response docs cfg.output_k =
          docs.take cfg.output_k) ∧
      (docs ≠ [] → rerankCore cfg docs (.error ()) = .error ()) ∧
      (docs ≠ [] → rerankCore cfg docs (.ok none) = .error ()) ∧
      (∀ llm, rerankCore cfg [] llm = .ok []) := by
  intro cfg docs response
  refine ⟨?_, ?_, ?_, ?_, ?_⟩
  · intro h
    simp [rerankCore, h]
  · intro hv
    simp only [processRankingResponse, missingIndices, hv, List.nil_append]
    simpa using take_range_filterMap docs cfg.output_k
  · intro h
    simp [rerankCore, h]
  · intro h
    simp [rerankCore, h]
  · intro llm
    simp [rerankCore]

/-- C3 witness: a parseable response on a concrete two-document pool. -/
theorem rerank_fallback_semantics_w :
    rerankCore {} [{ id := "d1", document := "A", relevancy_score := 1 },
        { id := "d2", document := "B", relevancy_score := 2 }]
      (.ok (some "[2] > [1]")) =
      .ok (processRankingResponse "[2] > [1]"
        [{ id := "d1", document := "A", relevancy_score := 1 },
         { id := "d2", document := "B", relevancy_score := 2 }]
        ({} : RerankingConfig).output_k) :=
  (rerank_fallback_semantics {} _ "[2] > [1]").1 (by decide)

/-- Every parsed-and-validated ranking index is within the pool. -/
theorem validRankings_lt (response : String) (n : Nat) :
    ∀ i ∈ validRankings response n, i < n := by
  intro i hi
  simp only [validRankings, List.mem_map, List.mem_filter] at hi
  obtain ⟨j, ⟨_, hcond⟩, rfl⟩ := hi
  simp only [Bool.and_eq_true, decide_eq_true_eq] at hcond
  omega

/-- Membership in the missing-index list. -/
theorem mem_missingIndices {response : String} {n i : Nat} :
    i ∈ missingIndices response n ↔
      i < n ∧ i ∉ validRankings response n := by
  simp [missingIndices, List.mem_filter, List.mem_range]

/-- The missing indices are distinct. -/
theorem missingIndices_nodup (response : String) (n : Nat) :
    (missingIndices response n).Nodup :=
  (List.nodup_range n).filter _

/-- The missing indices appear in ascending (original pool) order. -/
theorem missingIndices_sorted (response : String) (n : Nat) :
    (missingIndices response n).Pairwise (· < ·) :=
  List.Pairwise.filter _ (List.pairwise_lt_range n)

/-- If the valid parsed indices are distinct, parsed-plus-missing is a
permutation of all pool indices. -/
theorem valid_append_missing_perm (response : String) (n : Nat)
    (h : (validRankings response n).Nodup) :
    (validRankings response n ++ missingIndices response n).Perm
      (List.range n) := by
  have hnd : (validRankings response n ++ missingIndices response n).Nodup := by
    refine List.Nodup.append h (missingIndices_nodup response n) ?_
    intro a ha hm
    exact (mem_missingIndices.1 hm).2 ha
  refine (List.perm_ext_iff_of_nodup hnd (List.nodup_range n)).2 ?_
  intro a
  constructor
  · intro ha
    rcases List.mem_append.1 ha with h1 | h2
    · exact List.mem_range.2 (validRankings_lt response n a h1)
    · exact List.mem_range.2 (mem_missingIndices.1 h2).1
  · intro ha
    by_cases hv : a ∈ validRankings response n
    · exact List.mem_append.2 (Or.inl hv)
    · exact List.mem_append.2
        (Or.inr (mem_missingIndices.2 ⟨List.mem_range.1 ha, hv⟩))

/-- Looking up a list of in-bounds positions: length, membership and
nodup-preservation. -/
theorem filterMap_getElem_props {α : Type} (docs : List α) (is : List Nat)
    (h : ∀ i ∈ is, i < docs.length) :
    (is.filterMap (fun i => docs[i]?)).length = is.length ∧
    (∀ d ∈ is.filterMap (fun i => docs[i]?), d ∈ docs) ∧
    (docs.Nodup → is.Nodup →
      (is.filterMap (fun i => docs[i]?)).Nodup) := by
  induction is with
  | nil => simp
  | cons i is ih =>
    have hi : i < docs.length := h i (List.mem_cons_self i is)
    have hrest := ih (fun j hj => h j (List.mem_cons_of_mem i hj))
    have hget : docs[i]? = some docs[i] := List.getElem?_eq_getElem hi
    rw [List.filterMap_cons, hget]
    refine ⟨by simp [hrest.1], ?_, ?_⟩
    · intro d hd
      rcases List.mem_cons.1 hd with rfl | hd'
      · exact List.getElem_mem hi
      · exact hrest.2.1 d hd'
    · intro hnd hnodup
      rw [List.nodup_cons] at hnodup ⊢
      refine ⟨?_, hrest.2.2 hnd hnodup.2⟩
      intro hmem
      obtain ⟨j, hj, hjeq⟩ := List.mem_filterMap.1 hmem
      have hjlt : j < docs.length := h j (List.mem_cons_of_mem i hj)
      rw [List.getElem?_eq_getElem hjlt, Option.some.injEq] at hjeq
      have : j = i := (List.Nodup.getElem_inj_iff hnd).1 hjeq
      exact hnodup.1 (this ▸ hj)

/-- C2 counterexample: the ranking response `"1 1"` (the model repeats
candidate 1) over a 3-document pool with `output_k = 5` yields a list in
which a document appears twice and whose length is 4, not
`min(output_k, pool size) = 3` — the output is not a permutation of a
subset of the pool. -/
theorem rerank_duplicate_index_cex :
    ¬ (processRankingResponse "1 1"
        [{ id := "a", document := "A", relevancy_score := 1 },
         { id := "b", document := "B", relevancy_score := 2 },
         { id := "c", document := "C", relevancy_score := 3 }] 5).Nodup ∧
    (processRankingResponse "1 1"
        [{ id := "a", document := "A", relevancy_score := 1 },
         { id := "b", document := "B", relevancy_score := 2 },
         { id := "c", document := "C", relevancy_score := 3 }] 5).length ≠
      min 5 ([{ id := "a", document := "A", relevancy_score := 1 },
              { id := "b", document := "B", relevancy_score := 2 },
              { id := "c", document := "C", relevancy_score := 3 }] :
        List ServiceDoc).length := by
  constructor <;> decide

/-- C2 (amended): when the valid parsed indices are distinct, the
reranker's output is a permutation of a subset of the pool of size
`min(output_k, pool size)` — indices out of `[0, len(pool))` are discarded,
parsed-plus-missing is a permutation of all pool indices, unmentioned
candidates are appended in ascending pool order, no document outside the
pool is introduced, distinct pool documents appear at most once, and a
response with no valid indices yields the original order truncated to
`output_k`. (A response repeating an index violates the distinctness
premise and can duplicate a document, see the counterexample.) -/
theorem rerank_permutation_invariant :
    ∀ (response : String) (documents : List ServiceDoc) (k : Nat),
      (validRankings response documents.length).Nodup →
      ((validRankings response documents.length ++
          missingIndices response documents.length).Perm
        (List.range documents.length) ∧
      (processRankingResponse response documents k).length =
        min k documents.length ∧
      (∀ d ∈ processRankingResponse response documents k, d ∈ documents) ∧
      (documents.Nodup →
        (processRankingResponse response documents k).Nodup) ∧
      (missingIndices response documents.length).Pairwise (· < ·) ∧
      (validRankings response documents.length = [] →
        processRankingResponse response documents k = documents.take k)) := by
  intro response documents k hnd
  have hperm := valid_append_missing_perm response documents.length hnd
  have hlen : (validRankings response documents.length ++
      missingIndices response documents.length).length =
        documents.length := by
    rw [hperm.length_eq, List.length_range]
  have hbound : ∀ i ∈ (validRankings response documents.length ++
      missingIndices response documents.length).take k,
      i < documents.length := by
    intro i hi
    have := List.take_subset k _ hi
    rcases List.mem_append.1 this with h1 | h2
    · exact validRankings_lt response documents.length i h1
    · exact (mem_missingIndices.1 h2).1
  have hprops := filterMap_getElem_props documents
    ((validRankings response documents.length ++
      missingIndices response documents.length).take k) hbound
  refine ⟨hperm, ?_, ?_, ?_, missingIndices_sorted response documents.length,
    ?_⟩
  · rw [processRankingResponse, hprops.1, List.length_take, hlen]
  · exact hprops.2.1
  · intro hdocs
    refine hprops.2.2 hdocs ?_
    refine List.Nodup.sublist (List.take_sublist k _) ?_
    exact (hperm.nodup_iff).2 (List.nodup_range documents.length)
  · intro hv
    simp only [processRankingResponse, missingIndices, hv, List.nil_append]
    simpa using take_range_filterMap documents k

/-- C2 witness: the response `"2 1"` over a concrete 3-document pool with
`output_k = 2` has distinct valid indices; the output length is
`min 2 3`. -/
theorem rerank_permutation_invariant_w :
    (processRankingResponse "2 1"
        [{ id := "a", document := "A", relevancy_score := 1 },
         { id := "b", document := "B", relevancy_score := 2 },
         { id := "c", document := "C", relevancy_score := 3 }] 2).length =
      min 2 ([{ id := "a", document := "A", relevancy_score := 1 },
              { id := "b", document := "B", relevancy_score := 2 },
              { id := "c", document := "C", relevancy_score := 3 }] :
        List ServiceDoc).length :=
  (rerank_permutation_invariant "2 1"
    [{ id := "a", document := "A", relevancy_score := 1 },
     { id := "b", document := "B", relevancy_score := 2 },
     { id := "c", document := "C", relevancy_score := 3 }] 2
    (by decide)).2.1

/-- Every document coming out of the distance-computing loop carries a
computed `distance` of the form `distFn point user_location`. -/
theorem computeDistances_shape (distFn : ℚ × ℚ → ℚ × ℚ → ℚ)
    (loc : ℚ × ℚ) :
    ∀ (l ds : List ServiceDoc), computeDistances distFn loc l = .ok ds →
      ∀ x ∈ ds, ∃ pt, x.distance = some (distFn pt loc) := by
  intro l
  induction l with
  | nil =>
    intro ds h x hx
    simp only [computeDistances, Except.ok.injEq] at h
    subst h
    simp at hx
  | cons d l ih =>
    intro ds h x hx
    rcases hla : d.mlat with _ | la <;> rcases hlo : d.mlon with _ | lo <;>
      simp only [computeDistances, hla, hlo] at h
    · exact absurd h (by simp)
    · exact absurd h (by simp)
    · exact absurd h (by simp)
    · cases hr : computeDistances distFn loc l with
      | error e =>
        rw [hr] at h
        simp [Bind.bind, Except.bind] at h
      | ok rest =>
        rw [hr] at h
        simp only [Bind.bind, Except.bind, Except.ok.injEq] at h
        subst h
        rcases List.mem_cons.1 hx with rfl | hx'
        · exact ⟨(la, lo), rfl⟩
        · exact ih rest hr x hx'

/-- C5 counterexample: over the cosine-distance scores the index produces
(lower = more similar), the no-location path sorts descending by the RAW
score, so the strictly less similar document comes first — the output does
not equal the most-similar-first order the claim requires, with or without
a location. And with `w = 0`, two documents at 150 km and 120 km both clamp
to normalized distance 1, so the farther one stays first — not
nearest-first. -/
theorem ranking_convention_cex :
    (rankByRelevancy
        [{ id := "p", document := "P", relevancy_score := 2 },
         { id := "q", document := "Q", relevancy_score := 8 }] =
      [{ id := "q", document := "Q", relevancy_score := 8 },
       { id := "p", document := "P", relevancy_score := 2 }]) ∧
    ((1 : ℚ) - 8 < 1 - 2) ∧
    (rankByRelevancyAndDistance 0 (fun p _ => p.1)
        [{ id := "far", document := "F", mlat := some 150, mlon := some 1,
           relevancy_score := 1 },
         { id := "near", document := "N", mlat := some 120, mlon := some 1,
           relevancy_score := 1 }] (0, 0) =
      .ok [{ id := "far", document := "F", mlat := some 150, mlon := some 1,
             relevancy_score := 1, distance := some 150 },
           { id := "near", document := "N", mlat := some 120,
             mlon := some 1, relevancy_score := 1,
             distance := some 120 }]) ∧
    ((120 : ℚ) < 150) := by
  refine ⟨?_, by norm_num, ?_, by norm_num⟩
  · simp +decide [rankByRelevancy, List.mergeSort, List.merge]
  · norm_num [rankByRelevancyAndDistance, computeDistances,
      calculateRankingScore, List.mergeSort, List.merge, Bind.bind,
      Except.bind, Except.map]

/-- C5 (amended): the Ranking Engine's order at its module boundary. The
no-location path sorts descending by the raw relevancy score (for the
index's distance-style scores this is most-similar-LAST); with a user
location and `w = 1` the composite reduces to the similarity
`1 - relevancy_score`, giving most-similar-first (ascending raw score); and
with `w = 0` the order is nearest-first whenever the computed distances lie
within the 100 km normalization cap. -/
theorem ranking_weight_orders :
    ∀ (docs : List ServiceDoc),
      ((rankByRelevancy docs).Perm docs ∧
        (rankByRelevancy docs).Pairwise
          (fun a b => b.relevancy_score ≤ a.relevancy_score)) ∧
      (∀ (distFn : ℚ × ℚ → ℚ × ℚ → ℚ) (loc : ℚ × ℚ)
        (out : List ServiceDoc),
        rankByRelevancyAndDistance 1 distFn docs loc = .ok out →
        out.Pairwise (fun a b =>
          a.relevancy_score ≤ b.relevancy_score)) ∧
      (∀ (distFn : ℚ × ℚ → ℚ × ℚ → ℚ) (loc : ℚ × ℚ)
        (out : List ServiceDoc),
        (∀ p q, distFn p q ≤ 100) →
        rankByRelevancyAndDistance 0 distFn docs loc = .ok out →
        out.Pairwise (fun a b =>
          a.distance.getD 0 ≤ b.distance.getD 0)) := by
  intro docs
  refine ⟨⟨List.mergeSort_perm docs _, ?_⟩, ?_, ?_⟩
  · refine List.Pairwise.imp ?_ (List.sorted_mergeSort ?_ ?_ docs)
    · intro a b h
      exact of_decide_eq_true h
    · intro a b c h1 h2
      simp only [decide_eq_true_eq] at *
      exact le_trans h2 h1
    · intro a b
      simpa using le_total b.relevancy_score a.relevancy_score
  · intro distFn loc out h
    simp only [rankByRelevancyAndDistance] at h
    cases hc : computeDistances distFn loc docs with
    | error e =>
      rw [hc] at h
      simp [Except.map] at h
    | ok ds =>
      rw [hc] at h
      simp only [Except.map, Except.ok.injEq] at h
      subst h
      refine List.Pairwise.imp ?_ (List.sorted_mergeSort ?_ ?_ ds)
      · intro a b h
        simp only [decide_eq_true_eq, calculateRankingScore] at h
        ring_nf at h
        linarith
      · intro a b c h1 h2
        simp only [decide_eq_true_eq] at *
        exact le_trans h2 h1
      · intro a b
        simpa using le_total (calculateRankingScore 1 b)
          (calculateRankingScore 1 a)
  · intro distFn loc out h100 h
    simp only [rankByRelevancyAndDistance] at h
    cases hc : computeDistances distFn loc docs with
    | error e =>
      rw [hc] at h
      simp [Except.map] at h
    | ok ds =>
      rw [hc] at h
      simp only [Except.map, Except.ok.injEq] at h
      subst h
      have hshape := computeDistances_shape distFn loc docs ds hc
      refine List.Pairwise.imp_of_mem ?_ (List.sorted_mergeSort ?_ ?_ ds)
      · intro a b ha hb hab
        obtain ⟨pa, hpa⟩ := hshape a (List.mem_mergeSort.1 ha)
        obtain ⟨pb, hpb⟩ := hshape b (List.mem_mergeSort.1 hb)
        simp only [decide_eq_true_eq, calculateRankingScore, hpa, hpb,
          Option.getD_some] at hab ⊢
        have hma : min (distFn pa loc / 100) 1 = distFn pa loc / 100 :=
          min_eq_left ((div_le_one (by norm_num)).2 (h100 pa loc))
        have hmb : min (distFn pb loc / 100) 1 = distFn pb loc / 100 :=
          min_eq_left ((div_le_one (by norm_num)).2 (h100 pb loc))
        rw [hma, hmb] at hab
        ring_nf at hab
        linarith
      · intro a b c h1 h2
        simp only [decide_eq_true_eq] at *
        exact le_trans h2 h1
      · intro a b
        simpa using le_total (calculateRankingScore 0 b)
          (calculateRankingScore 0 a)

/-- C5 witness: the `w = 1` path at a concrete located pool is sorted
ascending by raw relevancy score. -/
theorem ranking_weight_orders_w :
    ([{ id := "p", document := "P", mlat := some 1, mlon := some 1,
        relevancy_score := 2, distance := some 3 },
      { id := "q", document := "Q", mlat := some 1, mlon := some 1,
        relevancy_score := 8, distance := some 3 }] :
      List ServiceDoc).Pairwise
        (fun a b => a.relevancy_score ≤ b.relevancy_score) :=
  (ranking_weight_orders
    [{ id := "q", document := "Q", mlat := some 1, mlon := some 1,
       relevancy_score := 8 },
     { id := "p", document := "P", mlat := some 1, mlon := some 1,
       relevancy_score := 2 }]).2.1 (fun _ _ => 3) (0, 0) _
    (by norm_num [rankByRelevancyAndDistance, computeDistances,
      calculateRankingScore, List.mergeSort, List.merge, Bind.bind,
      Except.bind, Except.map])

/-! ### Deduplication lemmas -/

/-- The deduplication loop keeps a subsequence of its input. -/
theorem dedupPass_sublist : ∀ (l : List Service)
    (seen : List (String × ℚ × ℚ)), (dedupPass l seen).1.Sublist l := by
  intro l
  induction l with
  | nil =>
    intro seen
    simp [dedupPass]
  | cons s ss ih =>
    intro seen
    by_cases h : serviceKey s ∈ seen
    · simp only [dedupPass, if_pos h]
      exact (ih seen).trans (List.sublist_cons_self s ss)
    · simp only [dedupPass, if_neg h]
      exact (ih _).cons₂ s

/-- A list all of whose keys are already seen is dropped entirely. -/
theorem dedupPass_seen_all : ∀ (l : List Service)
    (seen : List (String × ℚ × ℚ)),
    (∀ a ∈ l, serviceKey a ∈ seen) → dedupPass l seen = ([], l.length) := by
  intro l
  induction l with
  | nil =>
    intro seen _
    rfl
  | cons s ss ih =>
    intro seen h
    have hs := h s (List.mem_cons_self s ss)
    simp only [dedupPass, if_pos hs]
    rw [ih seen (fun a ha => h a (List.mem_cons_of_mem s ha))]
    simp

/-- On a non-empty list sharing one key, the loop keeps the head and
removes the rest. -/
theorem dedupPass_allsame (s : Service) (ss : List Service)
    (h : ∀ a ∈ ss, serviceKey a = serviceKey s) :
    dedupPass (s :: ss) [] = ([s], ss.length) := by
  have hnot : serviceKey s ∉ ([] : List (String × ℚ × ℚ)) := by simp
  simp only [dedupPass, if_neg hnot]
  rw [dedupPass_seen_all ss [serviceKey s] (fun a ha => by simp [h a ha])]

/-- Survivor count for a non-empty list sharing one key: one survivor,
`k - 1` removed. -/
theorem dedupPass_allsame_len (m : List Service) (hne : m ≠ [])
    (hsame : ∀ a ∈ m, ∀ b ∈ m, serviceKey a = serviceKey b) :
    (dedupPass m []).1.length = 1 ∧ (dedupPass m []).2 = m.length - 1 := by
  obtain ⟨s, ss, rfl⟩ := List.exists_cons_of_ne_nil hne
  rw [dedupPass_allsame s ss (fun a ha =>
    hsame a (List.mem_cons_of_mem s ha) s (List.mem_cons_self s ss))]
  simp

/-- The surviving records of the loop carry pairwise distinct keys, none of
them in `seen`. -/
theorem dedupPass_keys_nodup : ∀ (l : List Service)
    (seen : List (String × ℚ × ℚ)),
    ((dedupPass l seen).1.map serviceKey).Nodup ∧
    ∀ k ∈ (dedupPass l seen).1.map serviceKey, k ∉ seen := by
  intro l
  induction l with
  | nil =>
    intro seen
    simp [dedupPass]
  | cons s ss ih =>
    intro seen
    by_cases h : serviceKey s ∈ seen
    · simpa only [dedupPass, if_pos h] using ih seen
    · have hrec := ih (serviceKey s :: seen)
      simp only [dedupPass, if_neg h, List.map_cons, List.nodup_cons]
      refine ⟨⟨?_, hrec.1⟩, ?_⟩
      · intro hmem
        exact (hrec.2 _ hmem) (List.mem_cons_self _ _)
      · intro k hk
        rcases List.mem_cons.1 hk with rfl | hk'
        · exact h
        · intro hkseen
          exact (hrec.2 k hk') (List.mem_cons_of_mem _ hkseen)

/-- A list with pairwise distinct keys disjoint from `seen` passes through
the loop unchanged, with nothing removed. -/
theorem dedupPass_of_nodup : ∀ (l : List Service)
    (seen : List (String × ℚ × ℚ)),
    (l.map serviceKey).Nodup → (∀ k ∈ l.map serviceKey, k ∉ seen) →
    dedupPass l seen = (l, 0) := by
  intro l
  induction l with
  | nil =>
    intro seen _ _
    rfl
  | cons s ss ih =>
    intro seen hnd hdisj
    rw [List.map_cons, List.nodup_cons] at hnd
    have hnotin : serviceKey s ∉ seen := hdisj _ (by simp)
    simp only [dedupPass, if_neg hnotin]
    rw [ih (serviceKey s :: seen) hnd.2 ?_]
    intro k hk
    intro hmem
    rcases List.mem_cons.1 hmem with rfl | hk'
    · exact hnd.1 hk
    · exact hdisj k (List.mem_cons_of_mem _ hk) hk'

/-- Keys listed by the grouping pass all occur in the list. -/
theorem keysInOrder_subset : ∀ (l : List Service),
    ∀ k ∈ keysInOrder l, k ∈ l.map serviceKey := by
  intro l
  induction l using keysInOrder.induct with
  | case1 =>
    intro k hk
    simp [keysInOrder] at hk
  | case2 s ss ih =>
    intro k hk
    rw [keysInOrder] at hk
    rcases List.mem_cons.1 hk with rfl | hk'
    · exact List.mem_map_of_mem serviceKey (List.mem_cons_self s ss)
    · obtain ⟨t, ht, rfl⟩ := List.mem_map.1 (ih k hk')
      exact List.mem_map_of_mem serviceKey
        (List.mem_cons_of_mem s (List.mem_of_mem_filter ht))

/-- On a list with pairwise distinct keys the `most_recent` regrouping is
the identity (every group is a singleton, listed in first-occurrence
order). -/
theorem regroupMostRecent_of_nodup : ∀ (l : List Service),
    (l.map serviceKey).Nodup → regroupMostRecent l = l := by
  intro l
  induction l with
  | nil =>
    intro _
    simp [regroupMostRecent, keysInOrder]
  | cons s ss ih =>
    intro hnd
    rw [List.map_cons, List.nodup_cons] at hnd
    have hfilter : ss.filter (fun t => serviceKey t ≠ serviceKey s) = ss := by
      rw [List.filter_eq_self]
      intro t ht
      have : serviceKey t ≠ serviceKey s := by
        intro heq
        exact hnd.1 (heq ▸ List.mem_map_of_mem serviceKey ht)
      simpa using this
    have hko : keysInOrder (s :: ss) = serviceKey s :: keysInOrder ss := by
      rw [keysInOrder, hfilter]
    have hg1 : (s :: ss).filter (fun x => serviceKey x = serviceKey s)
        = [s] := by
      have h1 : ss.filter (fun x => serviceKey x = serviceKey s) = [] := by
        rw [List.filter_eq_nil_iff]
        intro t ht
        have : serviceKey t ≠ serviceKey s := by
          intro heq
          exact hnd.1 (heq ▸ List.mem_map_of_mem serviceKey ht)
        simpa using this
      simp [List.filter_cons, h1]
    have hg2 : (keysInOrder ss).map
        (fun k => sortGroup ((s :: ss).filter (fun x => serviceKey x = k)))
        = (keysInOrder ss).map
          (fun k => sortGroup (ss.filter (fun x => serviceKey x = k))) := by
      apply List.map_congr_left
      intro k hk
      have hks : k ∈ ss.map serviceKey := keysInOrder_subset ss k hk
      have hne : ¬ (serviceKey s = k) := by
        intro heq
        exact hnd.1 (heq ▸ hks)
      simp [List.filter_cons, hne]
    simp only [regroupMostRecent, hko, List.map_cons, List.flatten_cons,
      hg1, hg2]
    have hsing : sortGroup [s] = [s] := by
      simp [sortGroup, List.mergeSort]
    rw [hsing]
    have := ih hnd.2
    simp only [regroupMostRecent] at this
    rw [this]
    rfl

/-- On a non-empty list sharing one key the regrouping is just the
timestamp sort of the whole list. -/
theorem regroupMostRecent_allsame (s : Service) (ss : List Service)
    (h : ∀ a ∈ ss, serviceKey a = serviceKey s) :
    regroupMostRecent (s :: ss) = sortGroup (s :: ss) := by
  have hfilter : ss.filter (fun t => serviceKey t ≠ serviceKey s) = [] := by
    rw [List.filter_eq_nil_iff]
    intro t ht
    simp [h t ht]
  have hko : keysInOrder (s :: ss) = [serviceKey s] := by
    rw [keysInOrder, hfilter, keysInOrder]
  have hall : (s :: ss).filter (fun x => serviceKey x = serviceKey s)
      = s :: ss := by
    rw [List.filter_eq_self]
    intro t ht
    rcases List.mem_cons.1 ht with rfl | ht'
    · simp
    · simp [h t ht']
  simp [regroupMostRecent, hko, hall]

/-- C7 counterexample: under the `most_recent` strategy the survivors do
NOT keep their input relative order. For the input `[a1, b, a2]` (where
`a1`/`a2` share one identity key and `a2` is newer) the survivors are
`{a2, b}`; in the input `b` precedes `a2`, but the output is `[a2, b]` —
not a subsequence of the input. The per-key contract (1 survivor, k−1
removed) still holds here. -/
theorem dedup_most_recent_order_cex :
    removeDuplicates
      [{ id := "1", name := "Health Center", latitude := 43,
         longitude := -79, last_updated := some 10 },
       { id := "3", name := "Unique", latitude := 43, longitude := -79,
         last_updated := some 10 },
       { id := "2", name := "Health Center", latitude := 43,
         longitude := -79, last_updated := some 20 }] "most_recent" =
      ([{ id := "2", name := "Health Center", latitude := 43,
          longitude := -79, last_updated := some 20 },
        { id := "3", name := "Unique", latitude := 43, longitude := -79,
          last_updated := some 10 }], 1) ∧
    ¬ List.Sublist
      [({ id := "2", name := "Health Center", latitude := 43,
          longitude := -79, last_updated := some 20 } : Service),
       { id := "3", name := "Unique", latitude := 43, longitude := -79,
         last_updated := some 10 }]
      [{ id := "1", name := "Health Center", latitude := 43,
         longitude := -79, last_updated := some 10 },
       { id := "3", name := "Unique", latitude := 43, longitude := -79,
         last_updated := some 10 },
       { id := "2", name := "Health Center", latitude := 43,
         longitude := -79, last_updated := some 20 }] := by
  constructor
  · simp +decide [removeDuplicates, regroupMostRecent, keysInOrder,
      sortGroup, dedupPass, serviceKey, createDuplicateKey, normalizeName,
      List.mergeSort, List.merge, List.filter_cons, Prod.mk.injEq]
  · decide

/-- Any strategy's output has pairwise distinct identity keys. -/
theorem removeDuplicates_keys_nodup (strat : String) (l : List Service) :
    ((removeDuplicates l strat).1.map serviceKey).Nodup := by
  by_cases hne : l = []
  · subst hne
    simp [removeDuplicates]
  · by_cases hlast : strat = "last"
    · simp only [removeDuplicates, if_neg hne, if_pos hlast]
      rw [List.map_reverse]
      exact List.nodup_reverse.2 (dedupPass_keys_nodup l.reverse []).1
    · by_cases hmr : strat = "most_recent"
      · simp only [removeDuplicates, if_neg hne, if_neg hlast, if_pos hmr]
        exact (dedupPass_keys_nodup _ []).1
      · simp only [removeDuplicates, if_neg hne, if_neg hlast, if_neg hmr]
        exact (dedupPass_keys_nodup _ []).1

/-- On a list with pairwise distinct keys, every strategy returns the list
unchanged with a removed count of 0. -/
theorem removeDuplicates_of_nodup (strat : String) (m : List Service)
    (hnd : (m.map serviceKey).Nodup) :
    removeDuplicates m strat = (m, 0) := by
  by_cases hne : m = []
  · subst hne
    simp [removeDuplicates]
  · by_cases hlast : strat = "last"
    · simp only [removeDuplicates, if_neg hne, if_pos hlast]
      rw [dedupPass_of_nodup m.reverse []
        (by rw [List.map_reverse]; exact List.nodup_reverse.2 hnd)
        (by simp)]
      simp
    · by_cases hmr : strat = "most_recent"
      · simp only [removeDuplicates, if_neg hne, if_neg hlast, if_pos hmr]
        rw [regroupMostRecent_of_nodup m hnd,
          dedupPass_of_nodup m [] hnd (by simp)]
      · simp only [removeDuplicates, if_neg hne, if_neg hlast, if_neg hmr]
        rw [dedupPass_of_nodup m [] hnd (by simp)]

/-! ### Document-level deduplication lemmas -/

/-- The document loop keeps a subsequence of its input. -/
theorem dedupDocsPass_sublist : ∀ (l : List ServiceDoc)
    (seen : List (String × ℚ × ℚ)), (dedupDocsPass l seen).1.Sublist l := by
  intro l
  induction l with
  | nil =>
    intro seen
    simp [dedupDocsPass]
  | cons d ds ih =>
    intro seen
    cases hk : docKeyOpt d with
    | none =>
      simp only [dedupDocsPass, hk]
      exact (ih seen).cons₂ d
    | some key =>
      by_cases h : key ∈ seen
      · simp only [dedupDocsPass, hk, if_pos h]
        exact (ih seen).trans (List.sublist_cons_self d ds)
      · simp only [dedupDocsPass, hk, if_neg h]
        exact (ih _).cons₂ d

/-- A document list whose every key is determinable and already seen is
dropped entirely. -/
theorem dedupDocsPass_seen_all : ∀ (l : List ServiceDoc)
    (seen : List (String × ℚ × ℚ)),
    (∀ a ∈ l, ∃ k, docKeyOpt a = some k ∧ k ∈ seen) →
    dedupDocsPass l seen = ([], l.length) := by
  intro l
  induction l with
  | nil =>
    intro seen _
    rfl
  | cons d ds ih =>
    intro seen h
    obtain ⟨k, hk, hkseen⟩ := h d (List.mem_cons_self d ds)
    simp only [dedupDocsPass, hk, if_pos hkseen]
    rw [ih seen (fun a ha => h a (List.mem_cons_of_mem d ha))]
    simp

/-- On a non-empty document list sharing one determinable key, the loop
keeps the head and removes the rest. -/
theorem dedupDocsPass_allsame (d : ServiceDoc) (ds : List ServiceDoc)
    (k : String × ℚ × ℚ) (hd : docKeyOpt d = some k)
    (h : ∀ a ∈ ds, docKeyOpt a = some k) :
    dedupDocsPass (d :: ds) [] = ([d], ds.length) := by
  have hnot : k ∉ ([] : List (String × ℚ × ℚ)) := by simp
  simp only [dedupDocsPass, hd, if_neg hnot]
  rw [dedupDocsPass_seen_all ds [k]
    (fun a ha => ⟨k, h a ha, List.mem_cons_self k []⟩)]

/-- Survivor count for a non-empty document list sharing one determinable
key: one survivor, `k - 1` removed. -/
theorem dedupDocsPass_allsame_len (m : List ServiceDoc) (hne : m ≠ [])
    (hk : ∃ k, ∀ a ∈ m, docKeyOpt a = some k) :
    (dedupDocsPass m []).1.length = 1 ∧
    (dedupDocsPass m []).2 = m.length - 1 := by
  obtain ⟨k, hall⟩ := hk
  obtain ⟨d, ds, rfl⟩ := List.exists_cons_of_ne_nil hne
  rw [dedupDocsPass_allsame d ds k (hall d (List.mem_cons_self d ds))
    (fun a ha => hall a (List.mem_cons_of_mem d ha))]
  simp

/-- The surviving documents carry pairwise distinct (determinable) keys,
none of them in `seen`. -/
theorem dedupDocsPass_keys_nodup : ∀ (l : List ServiceDoc)
    (seen : List (String × ℚ × ℚ)),
    ((dedupDocsPass l seen).1.filterMap docKeyOpt).Nodup ∧
    ∀ k ∈ (dedupDocsPass l seen).1.filterMap docKeyOpt, k ∉ seen := by
  intro l
  induction l with
  | nil =>
    intro seen
    simp [dedupDocsPass]
  | cons d ds ih =>
    intro seen
    cases hk : docKeyOpt d with
    | none =>
      simpa only [dedupDocsPass, hk, List.filterMap_cons] using ih seen
    | some key =>
      by_cases h : key ∈ seen
      · simpa only [dedupDocsPass, hk, if_pos h] using ih seen
      · have hrec := ih (key :: seen)
        simp only [dedupDocsPass, hk, if_neg h, List.filterMap_cons,
          List.nodup_cons]
        refine ⟨⟨?_, hrec.1⟩, ?_⟩
        · intro hmem
          exact (hrec.2 _ hmem) (List.mem_cons_self _ _)
        · intro k hkm
          rcases List.mem_cons.1 hkm with rfl | hk'
          · exact h
          · intro hkseen
            exact (hrec.2 k hk') (List.mem_cons_of_mem _ hkseen)

/-- A document list with pairwise distinct determinable keys disjoint from
`seen` passes through the loop unchanged, with nothing removed. -/
theorem dedupDocsPass_of_nodup : ∀ (l : List ServiceDoc)
    (seen : List (String × ℚ × ℚ)),
    (l.filterMap docKeyOpt).Nodup →
    (∀ k ∈ l.filterMap docKeyOpt, k ∉ seen) →
    dedupDocsPass l seen = (l, 0) := by
  intro l
  induction l with
  | nil =>
    intro seen _ _
    rfl
  | cons d ds ih =>
    intro seen hnd hdisj
    cases hk : docKeyOpt d with
    | none =>
      rw [List.filterMap_cons, hk] at hnd hdisj
      simp only [dedupDocsPass, hk]
      rw [ih seen hnd hdisj]
    | some key =>
      rw [List.filterMap_cons, hk] at hnd hdisj
      rw [List.nodup_cons] at hnd
      have hnotin : key ∉ seen := hdisj _ (List.mem_cons_self _ _)
      simp only [dedupDocsPass, hk, if_neg hnotin]
      rw [ih (key :: seen) hnd.2 ?_]
      intro k hkm hmem
      rcases List.mem_cons.1 hmem with rfl | hk'
      · exact hnd.1 hkm
      · exact hdisj k (List.mem_cons_of_mem _ hkm) hk'

/-- Any strategy's document output has pairwise distinct determinable
keys. -/
theorem removeDuplicatesFromDocuments_keys_nodup (strat : String)
    (l : List ServiceDoc) :
    ((removeDuplicatesFromDocuments l strat).1.filterMap docKeyOpt).Nodup := by
  by_cases hne : l = []
  · subst hne
    simp [removeDuplicatesFromDocuments]
  · by_cases hlast : strat = "last"
    · simp only [removeDuplicatesFromDocuments, if_neg hne, if_pos hlast]
      rw [List.filterMap_reverse]
      exact List.nodup_reverse.2 (dedupDocsPass_keys_nodup l.reverse []).1
    · by_cases hbs : strat = "best_score"
      · simp only [removeDuplicatesFromDocuments, if_neg hne, if_neg hlast,
          if_pos hbs]
        exact (dedupDocsPass_keys_nodup _ []).1
      · simp only [removeDuplicatesFromDocuments, if_neg hne, if_neg hlast,
          if_neg hbs]
        exact (dedupDocsPass_keys_nodup _ []).1

/-- The `best_score` output is sorted ascending by relevancy score. -/
theorem removeDuplicatesFromDocuments_best_sorted (l : List ServiceDoc) :
    (removeDuplicatesFromDocuments l "best_score").1.Pairwise
      (fun a b => decide (a.relevancy_score ≤ b.relevancy_score) = true) := by
  by_cases hne : l = []
  · subst hne
    simp [removeDuplicatesFromDocuments]
  · simp only [removeDuplicatesFromDocuments, if_neg hne,
      if_neg (by decide : ¬ ("best_score" : String) = "last"),
      if_pos (rfl : ("best_score" : String) = "best_score")]
    refine List.Pairwise.sublist (dedupDocsPass_sublist _ []) ?_
    refine List.sorted_mergeSort ?_ ?_ l
    · intro a b c h1 h2
      simp only [decide_eq_true_eq] at *
      exact le_trans h1 h2
    · intro a b
      simpa using le_total a.relevancy_score b.relevancy_score

/-- C7 (amended): for every keep strategy, a non-empty list of `k` records
sharing one identity key — with determinable identity fields in the
document case — yields exactly 1 survivor with `k − 1` reported removed,
for `remove_duplicates` and `remove_duplicates_from_documents` alike. The
survivors keep their input relative order under the `first` and `last`
strategies of both functions (the output is a subsequence of the input),
but not in general under `most_recent` (see the counterexample: groups are
emitted in key-first-occurrence order); `best_score` on documents returns
its survivors in ascending relevancy-score order. -/
theorem dedup_one_survivor_and_order :
    (∀ (strat : String) (l : List Service), l ≠ [] →
      (∀ a ∈ l, ∀ b ∈ l, serviceKey a = serviceKey b) →
      (removeDuplicates l strat).1.length = 1 ∧
      (removeDuplicates l strat).2 = l.length - 1) ∧
    (∀ l : List Service, (removeDuplicates l "first").1.Sublist l) ∧
    (∀ l : List Service, (removeDuplicates l "last").1.Sublist l) ∧
    (∀ (strat : String) (l : List ServiceDoc), l ≠ [] →
      (∀ a ∈ l, (docKeyOpt a).isSome) →
      (∀ a ∈ l, ∀ b ∈ l, docKeyOpt a = docKeyOpt b) →
      (removeDuplicatesFromDocuments l strat).1.length = 1 ∧
      (removeDuplicatesFromDocuments l strat).2 = l.length - 1) ∧
    (∀ l : List ServiceDoc,
      (removeDuplicatesFromDocuments l "first").1.Sublist l) ∧
    (∀ l : List ServiceDoc,
      (removeDuplicatesFromDocuments l "last").1.Sublist l) ∧
    (∀ l : List ServiceDoc,
      (removeDuplicatesFromDocuments l "best_score").1.Pairwise
        (fun a b => a.relevancy_score ≤ b.relevancy_score)) := by
  refine ⟨?_, ?_, ?_, ?_, ?_, ?_, ?_⟩
  · intro strat l hne hsame
    by_cases hlast : strat = "last"
    · simp only [removeDuplicates, if_neg hne, if_pos hlast]
      have hrevne : l.reverse ≠ [] := by simpa using hne
      have hsame' : ∀ a ∈ l.reverse, ∀ b ∈ l.reverse,
          serviceKey a = serviceKey b := by
        intro a ha b hb
        exact hsame a (List.mem_reverse.1 ha) b (List.mem_reverse.1 hb)
      have h := dedupPass_allsame_len l.reverse hrevne hsame'
      constructor
      · simpa using h.1
      · simpa using h.2
    · by_cases hmr : strat = "most_recent"
      · simp only [removeDuplicates, if_neg hne, if_neg hlast, if_pos hmr]
        obtain ⟨s, ss, rfl⟩ := List.exists_cons_of_ne_nil hne
        rw [regroupMostRecent_allsame s ss (fun a ha =>
          hsame a (List.mem_cons_of_mem s ha) s (List.mem_cons_self s ss))]
        have hperm : (sortGroup (s :: ss)).Perm (s :: ss) :=
          List.mergeSort_perm _ _
        have hne2 : sortGroup (s :: ss) ≠ [] := by
          intro h0
          have := hperm.length_eq
          rw [h0] at this
          simp at this
        have hsame2 : ∀ a ∈ sortGroup (s :: ss), ∀ b ∈ sortGroup (s :: ss),
            serviceKey a = serviceKey b := by
          intro a ha b hb
          exact hsame a (hperm.subset ha) b (hperm.subset hb)
        have h := dedupPass_allsame_len _ hne2 hsame2
        exact ⟨h.1, by rw [h.2, hperm.length_eq]⟩
      · simp only [removeDuplicates, if_neg hne, if_neg hlast, if_neg hmr]
        exact dedupPass_allsame_len l hne hsame
  · intro l
    by_cases hne : l = []
    · subst hne
      simp [removeDuplicates]
    · simp only [removeDuplicates, if_neg hne,
        if_neg (by decide : ¬ ("first" : String) = "last"),
        if_neg (by decide : ¬ ("first" : String) = "most_recent")]
      exact dedupPass_sublist l []
  · intro l
    by_cases hne : l = []
    · subst hne
      simp [removeDuplicates]
    · simp only [removeDuplicates, if_neg hne,
        if_pos (rfl : ("last" : String) = "last")]
      have := (dedupPass_sublist l.reverse []).reverse
      rw [List.reverse_reverse] at this
      exact this
  · intro strat l hne hdet hsame
    have hk : ∃ k, ∀ a ∈ l, docKeyOpt a = some k := by
      obtain ⟨d0, hd0⟩ := List.exists_mem_of_ne_nil l hne
      obtain ⟨k, hk0⟩ := Option.isSome_iff_exists.1 (hdet d0 hd0)
      exact ⟨k, fun a ha => (hsame a ha d0 hd0).trans hk0⟩
    by_cases hlast : strat = "last"
    · simp only [removeDuplicatesFromDocuments, if_neg hne, if_pos hlast]
      have hrevne : l.reverse ≠ [] := by simpa using hne
      obtain ⟨k, hall⟩ := hk
      have h := dedupDocsPass_allsame_len l.reverse hrevne
        ⟨k, fun a ha => hall a (List.mem_reverse.1 ha)⟩
      constructor
      · simpa using h.1
      · simpa using h.2
    · by_cases hbs : strat = "best_score"
      · simp only [removeDuplicatesFromDocuments, if_neg hne, if_neg hlast,
          if_pos hbs]
        have hperm : (l.mergeSort (fun a b =>
            decide (a.relevancy_score ≤ b.relevancy_score))).Perm l :=
          List.mergeSort_perm _ _
        have hne2 : l.mergeSort (fun a b =>
            decide (a.relevancy_score ≤ b.relevancy_score)) ≠ [] := by
          intro h0
          apply hne
          have hlen := hperm.length_eq
          rw [h0] at hlen
          simp only [List.length_nil] at hlen
          exact List.length_eq_zero.1 hlen.symm
        obtain ⟨k, hall⟩ := hk
        have h := dedupDocsPass_allsame_len _ hne2
          ⟨k, fun a ha => hall a (hperm.subset ha)⟩
        exact ⟨h.1, by rw [h.2, hperm.length_eq]⟩
      · simp only [removeDuplicatesFromDocuments, if_neg hne, if_neg hlast,
          if_neg hbs]
        exact dedupDocsPass_allsame_len l hne hk
  · intro l
    by_cases hne : l = []
    · subst hne
      simp [removeDuplicatesFromDocuments]
    · simp only [removeDuplicatesFromDocuments, if_neg hne,
        if_neg (by decide : ¬ ("first" : String) = "last"),
        if_neg (by decide : ¬ ("first" : String) = "best_score")]
      exact dedupDocsPass_sublist l []
  · intro l
    by_cases hne : l = []
    · subst hne
      simp [removeDuplicatesFromDocuments]
    · simp only [removeDuplicatesFromDocuments, if_neg hne,
        if_pos (rfl : ("last" : String) = "last")]
      have := (dedupDocsPass_sublist l.reverse []).reverse
      rw [List.reverse_reverse] at this
      exact this
  · intro l
    exact List.Pairwise.imp (fun h => of_decide_eq_true h)
      (removeDuplicatesFromDocuments_best_sorted l)

/-- C7 witness: two concrete records sharing one key under the `first`
strategy, for service records and for documents. -/
theorem dedup_one_survivor_and_order_w :
    ((removeDuplicates
      [{ id := "1", name := "Health Center", latitude := 43,
         longitude := -79, last_updated := some 10 },
       { id := "2", name := "Health Center", latitude := 43,
         longitude := -79, last_updated := some 20 }] "first").1.length = 1 ∧
    (removeDuplicates
      [{ id := "1", name := "Health Center", latitude := 43,
         longitude := -79, last_updated := some 10 },
       { id := "2", name := "Health Center", latitude := 43,
         longitude := -79, last_updated := some 20 }] "first").2 =
      ([{ id := "1", name := "Health Center", latitude := 43,
          longitude := -79, last_updated := some 10 },
        { id := "2", name := "Health Center", latitude := 43,
          longitude := -79, last_updated := some 20 }] :
        List Service).length - 1) ∧
    ((removeDuplicatesFromDocuments
      [{ id := "doc1", document := "A", name := some "Health Center",
         mlat := some 43, mlon := some (-79), relevancy_score := 1 },
       { id := "doc2", document := "B", name := some "Health Center",
         mlat := some 43, mlon := some (-79), relevancy_score := 2 }]
      "first").1.length = 1 ∧
    (removeDuplicatesFromDocuments
      [{ id := "doc1", document := "A", name := some "Health Center",
         mlat := some 43, mlon := some (-79), relevancy_score := 1 },
       { id := "doc2", document := "B", name := some "Health Center",
         mlat := some 43, mlon := some (-79), relevancy_score := 2 }]
      "first").2 =
      ([{ id := "doc1", document := "A", name := some "Health Center",
          mlat := some 43, mlon := some (-79), relevancy_score := 1 },
        { id := "doc2", document := "B", name := some "Health Center",
          mlat := some 43, mlon := some (-79), relevancy_score := 2 }] :
        List ServiceDoc).length - 1) :=
  ⟨dedup_one_survivor_and_order.1 "first" _ (by simp)
    (by
      intro a ha b hb
      rcases List.mem_cons.1 ha with rfl | ha' <;>
        rcases List.mem_cons.1 hb with rfl | hb' <;>
          simp_all <;> subst_vars <;> rfl),
   dedup_one_survivor_and_order.2.2.2.1 "first" _ (by simp)
    (by
      intro a ha
      rcases List.mem_cons.1 ha with rfl | ha' <;> simp_all <;>
        subst_vars <;> rfl)
    (by
      intro a ha b hb
      rcases List.mem_cons.1 ha with rfl | ha' <;>
        rcases List.mem_cons.1 hb with rfl | hb' <;>
          simp_all <;> subst_vars <;> rfl)⟩

/-- On a document list with pairwise distinct determinable keys (sorted by
score when the strategy is `best_score`), every strategy returns the list
unchanged with a removed count of 0. -/
theorem removeDuplicatesFromDocuments_of_nodup (strat : String)
    (m : List ServiceDoc) (hnd : (m.filterMap docKeyOpt).Nodup)
    (hsorted : strat = "best_score" → m.Pairwise
      (fun a b => decide (a.relevancy_score ≤ b.relevancy_score) = true)) :
    removeDuplicatesFromDocuments m strat = (m, 0) := by
  by_cases hne : m = []
  · subst hne
    simp [removeDuplicatesFromDocuments]
  · by_cases hlast : strat = "last"
    · simp only [removeDuplicatesFromDocuments, if_neg hne, if_pos hlast]
      rw [dedupDocsPass_of_nodup m.reverse []
        (by rw [List.filterMap_reverse]; exact List.nodup_reverse.2 hnd)
        (by simp)]
      simp
    · by_cases hbs : strat = "best_score"
      · simp only [removeDuplicatesFromDocuments, if_neg hne, if_neg hlast,
          if_pos hbs]
        rw [List.mergeSort_of_sorted (hsorted hbs),
          dedupDocsPass_of_nodup m [] hnd (by simp)]
      · simp only [removeDuplicatesFromDocuments, if_neg hne, if_neg hlast,
          if_neg hbs]
        rw [dedupDocsPass_of_nodup m [] hnd (by simp)]

/-- C8: deduplication is idempotent for every keep strategy, for service
records and for documents: a second application with the same strategy
returns the first output unchanged with a removed count of 0. -/
theorem dedup_idempotent :
    (∀ (strat : String) (l : List Service),
      removeDuplicates (removeDuplicates l strat).1 strat =
        ((removeDuplicates l strat).1, 0)) ∧
    (∀ (strat : String) (l : List ServiceDoc),
      removeDuplicatesFromDocuments
          (removeDuplicatesFromDocuments l strat).1 strat =
        ((removeDuplicatesFromDocuments l strat).1, 0)) := by
  constructor
  · intro strat l
    exact removeDuplicates_of_nodup strat _
      (removeDuplicates_keys_nodup strat l)
  · intro strat l
    refine removeDuplicatesFromDocuments_of_nodup strat _
      (removeDuplicatesFromDocuments_keys_nodup strat l) ?_
    intro hbs
    subst hbs
    exact removeDuplicatesFromDocuments_best_sorted l

end HealthRec
